import Mathlib

/-!
Shallow embedding of the mcjmk/MQTT-server broker, checked against its
natural-language specification.

Sources embedded:
* `mqtt_server/messages/utils.py` — `read_remaining_length`, `pack_remaining_length`
  (the `mqtt_server/utils/helpers.py` copy computes the same function with the
  same loop body);
* `connection/connection_handler.py` — `MQTTConnectionHandler.handle_connect`,
  `handle_subscribe`, `handle_unsubscribe`, `handle_publish`, `handle_message`,
  and the cleanup block of `run`;
* `connection/commands.py` — `PublishCommand.execute`;
* `mqtt_server/connection/broker.py` — `Broker.__init__`, `SessionData`.

Bytes are modelled as `Nat` (stream bytes are below 256), Python `dict`s as
total functions into `Option`, Python `set`s (and `defaultdict(set)` entries)
as `Finset`s, stream writers as `Nat` handles, and network effects as an
explicit list of output events.
-/

namespace MQTT

/-! ## Remaining-length codec (`messages/utils.py`) -/

/-- The body of the `while True` loop of `read_remaining_length`
(`messages/utils.py` lines 7–26): each step reads one byte, adds
`(byte & 127) * multiplier` to the accumulated value, multiplies the
multiplier by 128, and stops when the continuation bit `byte & 128` is clear.
An empty stream models `readexactly` raising `IncompleteReadError`. -/
def read_rl_loop : List Nat → Nat → Nat → Option (Nat × List Nat)
  | [], _, _ => none
  | byte :: rest, value, multiplier =>
    if byte &&& 128 = 0 then some (value + (byte &&& 127) * multiplier, rest)
    else read_rl_loop rest (value + (byte &&& 127) * multiplier) (multiplier * 128)

/-- `read_remaining_length(reader)`: run the loop with `value = 0`,
`multiplier = 1`; returns the decoded integer and the bytes left. -/
def read_remaining_length (bs : List Nat) : Option (Nat × List Nat) :=
  read_rl_loop bs 0 1

/-- `pack_remaining_length(length)` (`messages/utils.py` lines 29–43): emit
`length % 128` with the top bit set when `length // 128 > 0`, then continue
with the quotient. -/
def pack_remaining_length (n : Nat) : List Nat :=
  if h : n < 128 then [n]
  else (n % 128 ||| 128) :: pack_remaining_length (n / 128)
  decreasing_by
    exact Nat.div_lt_self (by omega) (by omega)

theorem pack_rl_lt (n : Nat) (h : n < 128) : pack_remaining_length n = [n] := by
  rw [pack_remaining_length]
  simp [h]

theorem pack_rl_ge (n : Nat) (h : 128 ≤ n) :
    pack_remaining_length n = (n % 128 ||| 128) :: pack_remaining_length (n / 128) := by
  rw [pack_remaining_length]
  simp [Nat.not_lt.mpr h]

theorem land_small : ∀ m < 128, m &&& 127 = m ∧ m &&& 128 = 0 := by decide

theorem lor_cont : ∀ m < 128, (m ||| 128) &&& 127 = m ∧ ¬((m ||| 128) &&& 128 = 0) := by
  decide

/-- Decoding undoes encoding, at any accumulator and multiplier. -/
theorem read_rl_loop_pack (n : Nat) :
    ∀ value multiplier rest,
      read_rl_loop (pack_remaining_length n ++ rest) value multiplier =
        some (value + n * multiplier, rest) := by
  induction n using Nat.strong_induction_on with
  | _ n ih =>
    intro value multiplier rest
    by_cases h : n < 128
    · rw [pack_rl_lt n h]
      simp [read_rl_loop, (land_small n h).1, (land_small n h).2]
    · rw [pack_rl_ge n (by omega)]
      have hm : n % 128 < 128 := Nat.mod_lt _ (by omega)
      simp only [List.cons_append, read_rl_loop, (lor_cont _ hm).1,
        if_neg (lor_cont _ hm).2]
      rw [List.append_eq, ih (n / 128) (Nat.div_lt_self (by omega) (by omega))]
      congr 2
      calc value + n % 128 * multiplier + n / 128 * (multiplier * 128)
          = value + (n % 128 + 128 * (n / 128)) * multiplier := by ring
        _ = value + n * multiplier := by rw [Nat.mod_add_div]

theorem read_pack_roundtrip (n : Nat) :
    read_remaining_length (pack_remaining_length n) = some (n, []) := by
  have := read_rl_loop_pack n 0 1 []
  simpa [read_remaining_length] using this

theorem pack_rl_length (n : Nat) :
    (n < 128 → (pack_remaining_length n).length = 1) ∧
    (128 ≤ n → n < 16384 → (pack_remaining_length n).length = 2) ∧
    (16384 ≤ n → n < 2097152 → (pack_remaining_length n).length = 3) ∧
    (2097152 ≤ n → n ≤ 268435455 → (pack_remaining_length n).length = 4) := by
  refine ⟨fun h => by simp [pack_rl_lt n h], fun h1 h2 => ?_, fun h1 h2 => ?_, fun h1 h2 => ?_⟩
  · rw [pack_rl_ge n h1, pack_rl_lt (n / 128) (by omega)]
    simp
  · rw [pack_rl_ge n (by omega), pack_rl_ge (n / 128) (by omega),
      pack_rl_lt (n / 128 / 128) (by omega)]
    simp
  · rw [pack_rl_ge n (by omega), pack_rl_ge (n / 128) (by omega),
      pack_rl_ge (n / 128 / 128) (by omega),
      pack_rl_lt (n / 128 / 128 / 128) (by omega)]
    simp

/-! ## Data model (`broker.py`, `messages/*.py`) -/

/-- An `asyncio.StreamWriter` is identified by a handle. -/
abbrev Handle := Nat

abbrev Topic := String

abbrev ClientId := String

/-- Fixed header (`messages/header.py`): packet type, DUP, QoS, RETAIN. -/
structure Header where
  message_type : Nat
  dup : Nat := 0
  qos : Nat := 0
  retain : Nat := 0
deriving DecidableEq, Repr

/-- `PublishMessage` (`messages/publish.py`): topic, packet id (0 when QoS 0),
opaque payload bytes. -/
structure PublishMessage where
  header : Header
  topic : Topic
  packet_id : Nat
  payload : List Nat
deriving DecidableEq, Repr

/-- The CONNECT fields the handler reads (`messages/connect.py`). -/
structure ConnectMessage where
  client_id : ClientId
  username : Option String := none
  password : Option String := none
  clean_session : Bool := true
deriving DecidableEq, Repr

/-- The SUBSCRIBE fields the handler reads: packet id and `(topic, qos)` pairs. -/
structure SubscribeMessage where
  packet_id : Nat
  subscriptions : List (Topic × Nat)
deriving DecidableEq, Repr

/-- The UNSUBSCRIBE fields the handler reads. -/
structure UnsubscribeMessage where
  packet_id : Nat
  topics : List Topic
deriving DecidableEq, Repr

/-- `SessionData` (`broker.py` lines 18–22). -/
structure SessionData where
  subscriptions : Finset Topic := ∅
  queued_messages : List PublishMessage := []
  queued_message_ids : Finset String := ∅

/-- The registries of `Broker.__init__` (`broker.py` lines 26–37).
`defaultdict(set)` entries are total functions into `Finset`; plain dicts are
total functions into `Option`. -/
structure Broker where
  subscriptions : Topic → Finset Handle
  client_subscriptions : Handle → Finset Topic
  sessions : ClientId → Option SessionData
  connected_clients : ClientId → Option Handle
  writer_to_client_id : Handle → Option ClientId
  authentication_enabled : Bool

/-- A freshly constructed broker: every registry empty. -/
def Broker.init (auth : Bool) : Broker where
  subscriptions := fun _ => ∅
  client_subscriptions := fun _ => ∅
  sessions := fun _ => none
  connected_clients := fun _ => none
  writer_to_client_id := fun _ => none
  authentication_enabled := auth

/-- The per-connection locals of `MQTTConnectionHandler.__init__`. -/
structure Handler where
  writer : Handle
  client_id : Option ClientId := none
  username : Option String := none
  clean_session : Bool := true

/-- Packets the broker writes to a stream. -/
inductive OutPacket where
  | connack (session_present return_code : Nat)
  | suback (packet_id : Nat) (granted : List Nat)
  | unsuback (packet_id : Nat)
  | puback (packet_id : Nat)
  | pubrec (packet_id : Nat)
  | pubrel (packet_id : Nat)
  | pubcomp (packet_id : Nat)
  | pingresp
  | publishOut (m : PublishMessage)
deriving DecidableEq, Repr

/-- Observable effects on the network: a packet written to a handle's stream,
or a stream being closed. -/
inductive Event where
  | write (h : Handle) (p : OutPacket)
  | close (h : Handle)
deriving DecidableEq, Repr

/-- Pointwise update of a registry modelled as a total function. -/
def upd {α β : Type} [DecidableEq α] (f : α → β) (a : α) (v : β) : α → β :=
  fun x => if x = a then v else f x

theorem upd_same {α β : Type} [DecidableEq α] (f : α → β) (a : α) (v : β) :
    upd f a v a = v := by simp [upd]

theorem upd_other {α β : Type} [DecidableEq α] (f : α → β) (a : α) (v : β)
    (x : α) (h : x ≠ a) : upd f a v x = f x := by simp [upd, h]

/-! ## Payload text (`payload.decode('utf-8')` with `errors='ignore'` fallback,
`connection_handler.py` lines 198–201) -/

/-- Decode a byte string as UTF-8, silently dropping undecodable bytes: this
is the value of `payload.decode('utf-8')` when strict decoding succeeds, and
of the fallback `payload.decode('utf-8', 'ignore')` otherwise. A valid
sequence yields its scalar value; an invalid or truncated sequence drops the
leading byte and resynchronises (a stray continuation byte is itself invalid
and is dropped in turn, which reproduces CPython's maximal-subpart skipping). -/
def utf8DecodeLoop : Nat → List Nat → List Char
  | 0, _ => []
  | _, [] => []
  | fuel + 1, b :: rest =>
    if b < 0x80 then Char.ofNat b :: utf8DecodeLoop fuel rest
    else if 0xC2 ≤ b ∧ b ≤ 0xDF then
      match rest with
      | c1 :: rest1 =>
        if 0x80 ≤ c1 ∧ c1 ≤ 0xBF then
          Char.ofNat ((b - 0xC0) * 64 + (c1 - 0x80)) :: utf8DecodeLoop fuel rest1
        else utf8DecodeLoop fuel rest
      | [] => []
    else if 0xE0 ≤ b ∧ b ≤ 0xEF then
      match rest with
      | c1 :: c2 :: rest2 =>
        if ((b = 0xE0 ∧ 0xA0 ≤ c1) ∨ (b = 0xED ∧ c1 ≤ 0x9F) ∨
              (b ≠ 0xE0 ∧ b ≠ 0xED ∧ 0x80 ≤ c1)) ∧ c1 ≤ 0xBF ∧
            0x80 ≤ c2 ∧ c2 ≤ 0xBF then
          Char.ofNat ((b - 0xE0) * 4096 + (c1 - 0x80) * 64 + (c2 - 0x80)) ::
            utf8DecodeLoop fuel rest2
        else utf8DecodeLoop fuel rest
      | rest' => utf8DecodeLoop fuel rest'
    else if 0xF0 ≤ b ∧ b ≤ 0xF4 then
      match rest with
      | c1 :: c2 :: c3 :: rest3 =>
        if ((b = 0xF0 ∧ 0x90 ≤ c1) ∨ (b = 0xF4 ∧ c1 ≤ 0x8F) ∨
              (b ≠ 0xF0 ∧ b ≠ 0xF4 ∧ 0x80 ≤ c1)) ∧ c1 ≤ 0xBF ∧
            0x80 ≤ c2 ∧ c2 ≤ 0xBF ∧ 0x80 ≤ c3 ∧ c3 ≤ 0xBF then
          Char.ofNat ((b - 0xF0) * 262144 + (c1 - 0x80) * 4096 +
            (c2 - 0x80) * 64 + (c3 - 0x80)) :: utf8DecodeLoop fuel rest3
        else utf8DecodeLoop fuel rest
      | rest' => utf8DecodeLoop fuel rest'
    else utf8DecodeLoop fuel rest

/-- Each loop step consumes at least one byte, so the input length is enough
fuel. -/
def utf8DecodeIgnore (bs : List Nat) : List Char :=
  utf8DecodeLoop bs.length bs

/-- `payload_str` as a Lean string. -/
def payloadText (payload : List Nat) : String :=
  String.mk (utf8DecodeIgnore payload)

/-- The offline-queue dedup key
`f"{publish_msg.packet_id}-{topic}-{payload_str}"`
(`connection_handler.py` line 228, `commands.py` line 232). -/
def dedupKey (packet_id : Nat) (topic : Topic) (payload : List Nat) : String :=
  toString packet_id ++ "-" ++ topic ++ "-" ++ payloadText payload

/-! ## Connection handler operations (`connection_handler.py`) -/

/-- Python truthiness of an optional string (`if self.client_id ...`):
`None` and the empty string are falsy. -/
def truthy : Option String → Bool
  | none => false
  | some s => !(s == "")

/-- Session resolve (`handle_connect` lines 72–87): `clean_session = false`
reuses an existing session or creates a fresh one; `clean_session = true`
deletes any existing session and installs a fresh one. -/
def connectSession (b : Broker) (m : ConnectMessage) : Broker :=
  if ¬m.clean_session then
    match b.sessions m.client_id with
    | some _ => b
    | none => { b with sessions := upd b.sessions m.client_id (some {}) }
  else
    { b with sessions := upd b.sessions m.client_id (some {}) }

/-- Unregister a handle from the two subscription registries (the
`for topic in client_subscriptions[...]` unwind used by both the take-over
branch of `handle_connect` and the cleanup block of `run`). -/
def unwindSubscriptions (b : Broker) (w : Handle) : Broker :=
  { b with
    subscriptions := fun t =>
      if t ∈ b.client_subscriptions w then (b.subscriptions t).erase w
      else b.subscriptions t,
    client_subscriptions := upd b.client_subscriptions w ∅ }

/-- Take-over (`handle_connect` lines 89–109): only when the new CONNECT has
`clean_session = false` and the client id is already connected is the old
writer unwound, dropped from `writer_to_client_id`, and closed. -/
def connectTakeover (b : Broker) (m : ConnectMessage) : Broker × List Event :=
  match b.connected_clients m.client_id with
  | some old_writer =>
    if ¬m.clean_session then
      (let b := unwindSubscriptions b old_writer
       { b with writer_to_client_id := upd b.writer_to_client_id old_writer none },
       [Event.close old_writer])
    else (b, [])
  | none => (b, [])

/-- Registration (`handle_connect` lines 111–113). -/
def connectRegister (b : Broker) (w : Handle) (cid : ClientId) : Broker :=
  { b with
    connected_clients := upd b.connected_clients cid (some w),
    writer_to_client_id := upd b.writer_to_client_id w (some cid) }

/-- `MQTTConnectionHandler.handle_connect` (lines 47–122), parameterised by
the credential verifier `login` (the `UserAuthenticator.login` port).
Returns the new broker state, the updated handler locals, and the stream
events in the order they are performed. -/
def handle_connect (login : Option String → Option String → Bool)
    (b : Broker) (hd : Handler) (m : ConnectMessage) :
    Broker × Handler × List Event :=
  let hd := { hd with client_id := some m.client_id, username := m.username,
                      clean_session := m.clean_session }
  if b.authentication_enabled ∧ ¬login m.username m.password then
    (b, hd, [.write hd.writer (.connack 0 4), .close hd.writer])
  else
    let takeover := connectTakeover (connectSession b m) m
    (connectRegister takeover.1 hd.writer m.client_id, hd,
     takeover.2 ++ [.write hd.writer (.connack 0 0)])

/-- Result of the `for topic, qos in ...` loop of `handle_subscribe`:
either the loop finishes with the granted-QoS list, or
`self.broker.sessions[self.client_id]` raises `KeyError` mid-loop, leaving
the state mutated so far. -/
inductive SubResult where
  | ok (b : Broker) (granted : List Nat)
  | err (b : Broker)

/-- The topic loop of `handle_subscribe` (lines 128–148), parameterised by
the authorizer `az` (the `DevicePairingManager.is_topic_authorized` port). -/
def subscribeLoop (az : Option String → Topic → Bool) (hd : Handler) :
    List (Topic × Nat) → Broker → List Nat → SubResult
  | [], b, granted => .ok b granted
  | (topic, qos) :: rest, b, granted =>
    if b.authentication_enabled ∧ ¬az hd.username topic then
      subscribeLoop az hd rest b (granted ++ [0x80])
    else if topic ∉ b.client_subscriptions hd.writer then
      let b := { b with
        subscriptions := upd b.subscriptions topic
          (insert hd.writer (b.subscriptions topic)),
        client_subscriptions := upd b.client_subscriptions hd.writer
          (insert topic (b.client_subscriptions hd.writer)) }
      if truthy hd.client_id ∧ ¬hd.clean_session then
        match hd.client_id with
        | some cid =>
          match b.sessions cid with
          | some s =>
            subscribeLoop az hd rest
              { b with sessions := (upd b.sessions cid
                  (some { s with subscriptions := insert topic s.subscriptions })) }
              (granted ++ [qos])
          | none => .err b
        | none => .err b
      else
        subscribeLoop az hd rest b (granted ++ [qos])
    else
      subscribeLoop az hd rest b (granted ++ [qos])

/-- After the topic loop of `handle_subscribe` (lines 150–167): on success,
send SUBACK with the collected return codes and then flush the session's
offline queue — write each queued PUBLISH as-is in order and clear both the
queue and its dedup-id set. A `KeyError` mid-loop propagates: nothing is
written and the flush does not run. -/
def subscribeFinish (hd : Handler) (packet_id : Nat) :
    SubResult → Broker × List Event
  | .err b => (b, [])
  | .ok b granted =>
    let evs := [Event.write hd.writer (.suback packet_id granted)]
    if truthy hd.client_id ∧ ¬hd.clean_session then
      match hd.client_id with
      | some cid =>
        match b.sessions cid with
        | some s =>
          if s.queued_messages ≠ [] then
            ({ b with sessions := (upd b.sessions cid
                 (some { s with queued_messages := [], queued_message_ids := ∅ })) },
             evs ++ s.queued_messages.map (fun q => .write hd.writer (.publishOut q)))
          else (b, evs)
        | none => (b, evs)
      | none => (b, evs)
    else (b, evs)

/-- `MQTTConnectionHandler.handle_subscribe` (lines 124–167): run the topic
loop, then SUBACK and queue flush. -/
def handle_subscribe (az : Option String → Topic → Bool)
    (b : Broker) (hd : Handler) (m : SubscribeMessage) : Broker × List Event :=
  subscribeFinish hd m.packet_id (subscribeLoop az hd m.subscriptions b [])

/-- Result of the topic loop of `handle_unsubscribe`, with the same
`KeyError` possibility at `self.broker.sessions[self.client_id]`. -/
inductive UnsubResult where
  | ok (b : Broker)
  | err (b : Broker)

/-- The topic loop of `handle_unsubscribe` (lines 173–183). -/
def unsubscribeLoop (hd : Handler) : List Topic → Broker → UnsubResult
  | [], b => .ok b
  | topic :: rest, b =>
    if topic ∈ b.client_subscriptions hd.writer then
      let b := { b with
        subscriptions := upd b.subscriptions topic
          ((b.subscriptions topic).erase hd.writer),
        client_subscriptions := upd b.client_subscriptions hd.writer
          ((b.client_subscriptions hd.writer).erase topic) }
      if truthy hd.client_id ∧ ¬hd.clean_session then
        match hd.client_id with
        | some cid =>
          match b.sessions cid with
          | some s =>
            unsubscribeLoop hd rest
              { b with sessions := (upd b.sessions cid
                  (some { s with subscriptions := s.subscriptions.erase topic })) }
          | none => .err b
        | none => .err b
      else unsubscribeLoop hd rest b
    else unsubscribeLoop hd rest b

/-- `MQTTConnectionHandler.handle_unsubscribe` (lines 169–190): run the loop,
then always send UNSUBACK with the request's packet id (unless the loop
raised). -/
def handle_unsubscribe (b : Broker) (hd : Handler) (m : UnsubscribeMessage) :
    Broker × List Event :=
  match unsubscribeLoop hd m.topics b with
  | .err b => (b, [])
  | .ok b => (b, [.write hd.writer (.unsuback m.packet_id)])

/-- The elements of a multiset of handles in ascending order. -/
def ascList (m : Multiset Handle) : List Handle :=
  Quot.liftOn m (fun l => l.insertionSort (· ≤ ·)) fun l1 l2 h =>
    List.eq_of_perm_of_sorted
      ((l1.perm_insertionSort (· ≤ ·)).trans
        (h.trans (l2.perm_insertionSort (· ≤ ·)).symm))
      (l1.sorted_insertionSort (· ≤ ·)) (l2.sorted_insertionSort (· ≤ ·))

/-- The elements of a set of handles, listed in ascending order: one concrete
iteration order for Python's arbitrary set iteration. -/
def ascHandles (s : Finset Handle) : List Handle :=
  ascList s.val

theorem mem_ascList (m : Multiset Handle) (a : Handle) :
    a ∈ ascList m ↔ a ∈ m := by
  induction m using Quot.inductionOn with
  | _ l => simp [ascList, (l.perm_insertionSort (· ≤ ·)).mem_iff]

theorem mem_ascHandles (s : Finset Handle) (a : Handle) :
    a ∈ ascHandles s ↔ a ∈ s := by
  rw [ascHandles, mem_ascList]
  exact Iff.rfl

/-- Offline queueing of one PUBLISH into one session (the body of the
`for offline_client_id, session in self.broker.sessions.items()` loop,
lines 223–235). Applied pointwise: distinct sessions are independent, so the
dict iteration order is irrelevant. -/
def queueOffline (b : Broker) (m : PublishMessage) (cid : ClientId)
    (s : SessionData) : SessionData :=
  if (b.connected_clients cid).isNone ∧ m.topic ∈ s.subscriptions then
    if m.header.qos = 1 ∨ m.header.qos = 2 then
      let message_id := dedupKey m.packet_id m.topic m.payload
      if message_id ∉ s.queued_message_ids then
        { s with queued_messages := s.queued_messages ++ [m],
                 queued_message_ids := insert message_id s.queued_message_ids }
      else s
    else s
  else s

/-- The QoS acknowledgment sent back to the publisher (lines 237–252). -/
def publishAck (writer : Handle) (m : PublishMessage) : List Event :=
  if m.header.qos = 1 then [.write writer (.puback m.packet_id)]
  else if m.header.qos = 2 then [.write writer (.pubrec m.packet_id)]
  else []

/-- `MQTTConnectionHandler.handle_publish` (lines 192–252). `writeFails h`
models `subscriber.write`/`drain` raising for handle `h`; the exception is
caught per subscriber and fan-out continues. Fan-out goes only to handles in
`subscriptions[topic]` other than the sender whose `writer_to_client_id`
entry is truthy and currently in `connected_clients`. The set is iterated in
ascending handle order (Python set order is arbitrary). This variant performs
no authorization check. -/
def handle_publish (b : Broker) (hd : Handler) (m : PublishMessage)
    (writeFails : Handle → Bool) : Broker × List Event :=
  let targets := (ascHandles (b.subscriptions m.topic)).filter fun sub =>
    sub != hd.writer &&
      match b.writer_to_client_id sub with
      | some c => truthy (some c) && (b.connected_clients c).isSome
      | none => false
  let fanout := targets.filterMap fun sub =>
    if writeFails sub then none else some (Event.write sub (.publishOut m))
  let b := { b with sessions := fun cid =>
    (b.sessions cid).map (queueOffline b m cid) }
  (b, fanout ++ publishAck hd.writer m)

/-- `PublishCommand.execute` (`commands.py` lines 189–256): the command
variant of PUBLISH handling. It checks authorization first and returns
silently when denied; its fan-out writes to every subscriber other than the
sender with no connectivity check. -/
def publishCommand (az : Option String → Topic → Bool)
    (b : Broker) (hd : Handler) (m : PublishMessage)
    (writeFails : Handle → Bool) : Broker × List Event :=
  if b.authentication_enabled ∧ ¬az hd.username m.topic then (b, [])
  else
    let targets := (ascHandles (b.subscriptions m.topic)).filter
      fun sub => sub != hd.writer
    let fanout := targets.filterMap fun sub =>
      if writeFails sub then none else some (Event.write sub (.publishOut m))
    let b := { b with sessions := fun cid =>
      (b.sessions cid).map (queueOffline b m cid) }
    (b, fanout ++ publishAck hd.writer m)

/-- Session retention at cleanup (`run` lines 339–347): keep the session when
`clean_session` is false, delete it when true. -/
def cleanupSession (b : Broker) (hd : Handler) : Broker :=
  match hd.client_id with
  | some cid =>
    if ¬hd.clean_session then b
    else
      match b.sessions cid with
      | some _ => { b with sessions := upd b.sessions cid none }
      | none => b
  | none => b

/-- Connected-client removal at cleanup (`run` lines 357–358): the entry for
`client_id` is deleted whenever the key is present — the source does NOT
check which writer it maps to. -/
def cleanupConnected (b : Broker) (hd : Handler) : Broker :=
  match hd.client_id with
  | some cid =>
    match b.connected_clients cid with
    | some _ => { b with connected_clients := upd b.connected_clients cid none }
    | none => b
  | none => b

/-- Reverse-map removal at cleanup (`run` lines 359–360). -/
def cleanupWriterMap (b : Broker) (hd : Handler) : Broker :=
  match b.writer_to_client_id hd.writer with
  | some _ =>
    { b with writer_to_client_id := upd b.writer_to_client_id hd.writer none }
  | none => b

/-- The cleanup block at the end of `MQTTConnectionHandler.run`
(lines 337–364), run after the read loop exits. -/
def cleanup (b : Broker) (hd : Handler) : Broker × List Event :=
  (cleanupWriterMap
     (cleanupConnected (unwindSubscriptions (cleanupSession b hd) hd.writer) hd) hd,
   [.close hd.writer])

/-- An incoming control packet, as dispatched by `handle_message`. -/
inductive Msg where
  | connect (m : ConnectMessage)
  | subscribe (m : SubscribeMessage)
  | unsubscribe (m : UnsubscribeMessage)
  | publish (m : PublishMessage)
  | pubrec (packet_id : Nat)
  | pubrel (packet_id : Nat)
  | pubcomp (packet_id : Nat)
  | pingreq
  | pingresp
  | disconnect

/-- `MQTTConnectionHandler.handle_message` (lines 299–335): dispatch purely on
the packet type — there is no connection-state check of any kind. -/
def handle_message (login : Option String → Option String → Bool)
    (az : Option String → Topic → Bool) (writeFails : Handle → Bool)
    (b : Broker) (hd : Handler) : Msg → Broker × Handler × List Event
  | .connect m => handle_connect login b hd m
  | .subscribe m =>
    let r := handle_subscribe az b hd m
    (r.1, hd, r.2)
  | .unsubscribe m =>
    let r := handle_unsubscribe b hd m
    (r.1, hd, r.2)
  | .publish m =>
    let r := handle_publish b hd m writeFails
    (r.1, hd, r.2)
  | .pubrec pid => (b, hd, [.write hd.writer (.pubrel pid)])
  | .pubrel pid => (b, hd, [.write hd.writer (.pubcomp pid)])
  | .pubcomp _ => (b, hd, [])
  | .pingreq => (b, hd, [.write hd.writer .pingresp])
  | .pingresp => (b, hd, [])
  | .disconnect => (b, hd, [.close hd.writer])

/-! ## Helper lemmas -/

theorem connectSession_proj (b : Broker) (m : ConnectMessage) :
    (connectSession b m).subscriptions = b.subscriptions ∧
    (connectSession b m).client_subscriptions = b.client_subscriptions ∧
    (connectSession b m).connected_clients = b.connected_clients ∧
    (connectSession b m).writer_to_client_id = b.writer_to_client_id := by
  unfold connectSession
  split
  · cases b.sessions m.client_id <;> exact ⟨rfl, rfl, rfl, rfl⟩
  · exact ⟨rfl, rfl, rfl, rfl⟩

/-! ## Claims -/

/-- C8 (counterexample): the remaining-length decoder does NOT stop at 4
bytes. On a stream whose first four bytes all have the continuation bit set,
it consumes a fifth byte and succeeds (value `2^28`) instead of failing with
a malformed-packet error. -/
theorem C8_counterexample :
    read_remaining_length [128, 128, 128, 128, 1, 99] = some (268435456, [99]) := by
  decide

/-- C8 (amended): the decoder reads bytes while the continuation bit is set,
with no 4-byte cap: when the first four bytes all have the top bit set it
consumes a fifth byte (and keeps going if that byte also continues); it never
raises a malformed-packet error. -/
theorem C8_no_four_byte_cap (b1 b2 b3 b4 b5 : Nat) (rest : List Nat)
    (h1 : b1 &&& 128 ≠ 0) (h2 : b2 &&& 128 ≠ 0) (h3 : b3 &&& 128 ≠ 0)
    (h4 : b4 &&& 128 ≠ 0) (h5 : b5 &&& 128 = 0) :
    read_remaining_length (b1 :: b2 :: b3 :: b4 :: b5 :: rest) =
      some ((b1 &&& 127) + (b2 &&& 127) * 128 + (b3 &&& 127) * 16384 +
        (b4 &&& 127) * 2097152 + (b5 &&& 127) * 268435456, rest) := by
  simp only [read_remaining_length, read_rl_loop, if_neg h1, if_neg h2,
    if_neg h3, if_neg h4, if_pos h5]
  norm_num

/-- Witness for C8 amended at a concrete five-byte input. -/
theorem C8_no_four_byte_cap_witness :
    (128 &&& 128 ≠ 0) ∧ (129 &&& 128 ≠ 0) ∧ (130 &&& 128 ≠ 0) ∧
    (131 &&& 128 ≠ 0) ∧ (5 &&& 128 = 0) ∧
    read_remaining_length [128, 129, 130, 131, 5, 9] =
      some ((128 &&& 127) + (129 &&& 127) * 128 + (130 &&& 127) * 16384 +
        (131 &&& 127) * 2097152 + (5 &&& 127) * 268435456, [9]) :=
  ⟨by decide, by decide, by decide, by decide, by decide,
   C8_no_four_byte_cap 128 129 130 131 5 [9]
     (by decide) (by decide) (by decide) (by decide) (by decide)⟩

/-- C9: for every `n` in the remaining-length range, decoding the encoding of
`n` yields `n` with the input consumed exactly; `0` encodes as the single
byte `0x00`; and the encoded length is 1/2/3/4 bytes at the thresholds
128 / 16384 / 2097152. -/
theorem C9_remaining_length_roundtrip (n : Nat) (h : n ≤ 268435455) :
    read_remaining_length (pack_remaining_length n) = some (n, []) ∧
    pack_remaining_length 0 = [0] ∧
    (n < 128 → (pack_remaining_length n).length = 1) ∧
    (128 ≤ n → n < 16384 → (pack_remaining_length n).length = 2) ∧
    (16384 ≤ n → n < 2097152 → (pack_remaining_length n).length = 3) ∧
    (2097152 ≤ n → (pack_remaining_length n).length = 4) := by
  obtain ⟨l1, l2, l3, l4⟩ := pack_rl_length n
  exact ⟨read_pack_roundtrip n, pack_rl_lt 0 (by omega), l1, l2, l3,
    fun h2 => l4 h2 h⟩

/-- Witness for C9 at `n = 2097152`. -/
theorem C9_remaining_length_roundtrip_witness :
    2097152 ≤ 268435455 ∧
    (read_remaining_length (pack_remaining_length 2097152) = some (2097152, []) ∧
     pack_remaining_length 0 = [0] ∧
     (2097152 < 128 → (pack_remaining_length 2097152).length = 1) ∧
     (128 ≤ 2097152 → 2097152 < 16384 → (pack_remaining_length 2097152).length = 2) ∧
     (16384 ≤ 2097152 → 2097152 < 2097152 → (pack_remaining_length 2097152).length = 3) ∧
     (2097152 ≤ 2097152 → (pack_remaining_length 2097152).length = 4)) :=
  ⟨by decide, C9_remaining_length_roundtrip 2097152 (by decide)⟩

/-- A broker with client `"A"` connected on handle 0 and subscribed to `"t"`. -/
def brokerA : Broker where
  subscriptions := fun t => if t = "t" then {0} else ∅
  client_subscriptions := fun h => if h = 0 then {"t"} else ∅
  sessions := fun c => if c = "A" then some { subscriptions := {"t"} } else none
  connected_clients := fun c => if c = "A" then some 0 else none
  writer_to_client_id := fun h => if h = 0 then some "A" else none
  authentication_enabled := false

/-- C1 (counterexample): a duplicate CONNECT for `"A"` with
`clean_session = true` does NOT perform take-over: the old handle 0 stays in
`subscriptions["t"]` and in `writer_to_client_id`, and its stream is not
closed — only `connected_clients["A"]` is re-bound to the new handle 1. -/
theorem C1_counterexample :
    0 ∈ (handle_connect (fun _ _ => true) brokerA { writer := 1 }
        { client_id := "A", clean_session := true }).1.subscriptions "t" ∧
    (handle_connect (fun _ _ => true) brokerA { writer := 1 }
        { client_id := "A", clean_session := true }).1.writer_to_client_id 0 = some "A" ∧
    Event.close 0 ∉ (handle_connect (fun _ _ => true) brokerA { writer := 1 }
        { client_id := "A", clean_session := true }).2.2 ∧
    (handle_connect (fun _ _ => true) brokerA { writer := 1 }
        { client_id := "A", clean_session := true }).1.connected_clients "A" = some 1 := by
  decide

/-- C1 (amended): take-over happens only when the new CONNECT has
`clean_session = false`. In that case, for a duplicate CONNECT, the broker
removes the old handle from every subscription set it appears in, empties its
`client_subscriptions` entry, drops it from `writer_to_client_id`, closes the
old output stream, and registers the new handle. The consistency hypothesis
`hcons` states that the old handle only appears in subscription sets tracked
by its `client_subscriptions` entry, which the registries maintain. -/
theorem C1_takeover_only_without_clean_session
    (login : Option String → Option String → Bool) (b : Broker) (hd : Handler)
    (m : ConnectMessage) (old : Handle)
    (hauth : b.authentication_enabled = false)
    (hclean : m.clean_session = false)
    (hold : b.connected_clients m.client_id = some old)
    (hcons : ∀ t, old ∈ b.subscriptions t → t ∈ b.client_subscriptions old)
    (hne : old ≠ hd.writer) :
    (∀ t, old ∉ (handle_connect login b hd m).1.subscriptions t) ∧
    (handle_connect login b hd m).1.client_subscriptions old = ∅ ∧
    (handle_connect login b hd m).1.writer_to_client_id old = none ∧
    (handle_connect login b hd m).1.connected_clients m.client_id = some hd.writer ∧
    (handle_connect login b hd m).1.writer_to_client_id hd.writer = some m.client_id ∧
    Event.close old ∈ (handle_connect login b hd m).2.2 := by
  obtain ⟨hs1, hs2, hs3, hs4⟩ := connectSession_proj b m
  have htake : connectTakeover (connectSession b m) m =
      (let b' := unwindSubscriptions (connectSession b m) old
       { b' with writer_to_client_id := upd b'.writer_to_client_id old none },
       [Event.close old]) := by
    unfold connectTakeover
    rw [hs3, hold]
    simp [hclean]
  unfold handle_connect
  simp only [hauth, Bool.false_eq_true, false_and, if_false, htake,
    connectRegister, unwindSubscriptions, hs1, hs2, hs4]
  refine ⟨fun t => ?_, by simp [upd_same], ?_, by simp [upd_same],
    by simp [upd_same], by simp⟩
  · by_cases hmem : t ∈ b.client_subscriptions old
    · simp [hmem, Finset.mem_erase]
    · simp only [hmem, if_false]
      exact fun h => hmem (hcons t h)
  · rw [upd_other _ _ _ _ hne, upd_same]

/-- Witness for C1 amended: take-over of handle 0 by a
`clean_session = false` CONNECT on handle 1. -/
theorem C1_takeover_only_without_clean_session_witness :
    (brokerA.authentication_enabled = false ∧
     ({ client_id := "A", clean_session := false } : ConnectMessage).clean_session = false ∧
     brokerA.connected_clients "A" = some 0 ∧
     (∀ t, 0 ∈ brokerA.subscriptions t → t ∈ brokerA.client_subscriptions 0) ∧
     (0 : Handle) ≠ 1) ∧
    ((∀ t, 0 ∉ (handle_connect (fun _ _ => true) brokerA { writer := 1 }
        { client_id := "A", clean_session := false }).1.subscriptions t) ∧
     (handle_connect (fun _ _ => true) brokerA { writer := 1 }
        { client_id := "A", clean_session := false }).1.client_subscriptions 0 = ∅ ∧
     (handle_connect (fun _ _ => true) brokerA { writer := 1 }
        { client_id := "A", clean_session := false }).1.writer_to_client_id 0 = none ∧
     (handle_connect (fun _ _ => true) brokerA { writer := 1 }
        { client_id := "A", clean_session := false }).1.connected_clients "A" = some 1 ∧
     (handle_connect (fun _ _ => true) brokerA { writer := 1 }
        { client_id := "A", clean_session := false }).1.writer_to_client_id 1 = some "A" ∧
     Event.close 0 ∈ (handle_connect (fun _ _ => true) brokerA { writer := 1 }
        { client_id := "A", clean_session := false }).2.2) := by
  have hcons : ∀ t, (0 : Handle) ∈ brokerA.subscriptions t →
      t ∈ brokerA.client_subscriptions 0 := by
    intro t h
    by_cases ht : t = "t" <;> simp [brokerA, ht] at h ⊢
  exact ⟨⟨rfl, rfl, rfl, hcons, by decide⟩,
    C1_takeover_only_without_clean_session (fun _ _ => true) brokerA { writer := 1 }
      { client_id := "A", clean_session := false } 0 rfl rfl rfl hcons (by decide)⟩

/-- With no authorization check firing and no session branch (falsy
`client_id`), the SUBSCRIBE topic loop always finishes and grants every
requested QoS in order. -/
theorem subscribeLoop_no_session_branch (az : Option String → Topic → Bool)
    (hd : Handler) (hcid : truthy hd.client_id = false) :
    ∀ (ts : List (Topic × Nat)) (b : Broker) (granted : List Nat),
      b.authentication_enabled = false →
      ∃ b', subscribeLoop az hd ts b granted = .ok b' (granted ++ ts.map Prod.snd) ∧
        b'.authentication_enabled = false := by
  intro ts
  induction ts with
  | nil =>
    intro b granted hb
    exact ⟨b, by simp [subscribeLoop], hb⟩
  | cons p rest ih =>
    intro b granted hb
    obtain ⟨topic, qos⟩ := p
    simp only [subscribeLoop, List.map_cons]
    rw [if_neg (by simp [hb])]
    by_cases hm : topic ∉ b.client_subscriptions hd.writer
    · rw [if_pos hm, if_neg (by simp [hcid])]
      obtain ⟨b', hb', hflag⟩ := ih
        { b with
          subscriptions := upd b.subscriptions topic
            (insert hd.writer (b.subscriptions topic)),
          client_subscriptions := upd b.client_subscriptions hd.writer
            (insert topic (b.client_subscriptions hd.writer)) }
        (granted ++ [qos]) hb
      exact ⟨b', by rw [hb']; simp, hflag⟩
    · rw [if_neg hm]
      obtain ⟨b', hb', hflag⟩ := ih b (granted ++ [qos]) hb
      exact ⟨b', by rw [hb']; simp, hflag⟩

/-- C4 (counterexample): a fresh handler (no CONNECT processed yet,
`client_id = None`) that receives a SUBSCRIBE has it fully processed: the
handle is registered in `subscriptions["t"]` and a SUBACK is written back,
and the connection is not closed — not a protocol error with no response. -/
theorem C4_counterexample :
    (handle_message (fun _ _ => true) (fun _ _ => true) (fun _ => false)
        (Broker.init false) { writer := 0 } (.subscribe ⟨7, [("t", 1)]⟩)).2.2 =
      [Event.write 0 (.suback 7 [1])] ∧
    0 ∈ (handle_message (fun _ _ => true) (fun _ _ => true) (fun _ => false)
        (Broker.init false) { writer := 0 } (.subscribe ⟨7, [("t", 1)]⟩)).1.subscriptions "t" ∧
    Event.close 0 ∉ (handle_message (fun _ _ => true) (fun _ _ => true) (fun _ => false)
        (Broker.init false) { writer := 0 } (.subscribe ⟨7, [("t", 1)]⟩)).2.2 := by
  decide

/-- C4 (amended): `handle_message` dispatches purely on the packet type and
performs no connection-state check. A SUBSCRIBE arriving before any CONNECT
(handler still has `client_id = None`) is processed normally and answered
with a SUBACK granting every requested QoS, with no close; and a handler that
is already connected (`client_id` set) that receives another CONNECT
processes it and writes a CONNACK again. -/
theorem C4_no_state_machine (login : Option String → Option String → Bool)
    (az : Option String → Topic → Bool) (wf : Handle → Bool)
    (b b2 : Broker) (hd hd2 : Handler) (sm : SubscribeMessage)
    (cm : ConnectMessage) (cid : ClientId)
    (hauth : b.authentication_enabled = false)
    (hinit : hd.client_id = none)
    (hauth2 : b2.authentication_enabled = false)
    (_hconn : hd2.client_id = some cid) :
    (handle_message login az wf b hd (.subscribe sm)).2.2 =
      [Event.write hd.writer (.suback sm.packet_id (sm.subscriptions.map Prod.snd))] ∧
    (∀ h, Event.close h ∉ (handle_message login az wf b hd (.subscribe sm)).2.2) ∧
    Event.write hd2.writer (.connack 0 0) ∈
      (handle_message login az wf b2 hd2 (.connect cm)).2.2 := by
  have hcid : truthy hd.client_id = false := by simp [truthy, hinit]
  obtain ⟨b', hb', -⟩ :=
    subscribeLoop_no_session_branch az hd hcid sm.subscriptions b [] hauth
  have hsub : (handle_message login az wf b hd (.subscribe sm)).2.2 =
      [Event.write hd.writer (.suback sm.packet_id (sm.subscriptions.map Prod.snd))] := by
    simp only [handle_message, handle_subscribe, hb', subscribeFinish, hcid,
      Bool.false_eq_true, false_and, if_false, List.nil_append]
  refine ⟨hsub, fun h => by simp [hsub], ?_⟩
  simp [handle_message, handle_connect, hauth2]

/-- Witness for C4 amended with concrete states on both sides. -/
theorem C4_no_state_machine_witness :
    ((Broker.init false).authentication_enabled = false ∧
     ({ writer := 0 } : Handler).client_id = none ∧
     (Broker.init false).authentication_enabled = false ∧
     ({ writer := 1, client_id := some "A" } : Handler).client_id = some "A") ∧
    ((handle_message (fun _ _ => true) (fun _ _ => true) (fun _ => false)
        (Broker.init false) { writer := 0 } (.subscribe ⟨7, [("t", 1)]⟩)).2.2 =
      [Event.write 0 (.suback 7 ([("t", 1)].map Prod.snd))] ∧
     (∀ h, Event.close h ∉ (handle_message (fun _ _ => true) (fun _ _ => true)
        (fun _ => false) (Broker.init false) { writer := 0 }
        (.subscribe ⟨7, [("t", 1)]⟩)).2.2) ∧
     Event.write 1 (.connack 0 0) ∈
      (handle_message (fun _ _ => true) (fun _ _ => true) (fun _ => false)
        (Broker.init false) { writer := 1, client_id := some "A" }
        (.connect { client_id := "A" })).2.2) :=
  ⟨⟨rfl, rfl, rfl, rfl⟩,
   C4_no_state_machine (fun _ _ => true) (fun _ _ => true) (fun _ => false)
     (Broker.init false) (Broker.init false) { writer := 0 }
     { writer := 1, client_id := some "A" } ⟨7, [("t", 1)]⟩
     { client_id := "A" } "A" rfl rfl rfl rfl⟩

/-- `brokerA` after a take-over re-bound `"A"` to the newer handle 1. -/
def brokerTakenOver : Broker :=
  { brokerA with connected_clients := fun c => if c = "A" then some 1 else none }

/-- The superseded connection's handler locals: handle 0, still holding
`client_id = "A"`. -/
def hdOld : Handler :=
  { writer := 0, client_id := some "A", clean_session := false }

/-- The reverse-map stage never touches `connected_clients`. -/
theorem cleanupWriterMap_connected (b : Broker) (hd : Handler) :
    (cleanupWriterMap b hd).connected_clients = b.connected_clients := by
  unfold cleanupWriterMap
  cases b.writer_to_client_id hd.writer <;> rfl

/-- C5 (counterexample): after a take-over has re-bound `"A"` to handle 1,
cleanup of the superseded connection (handle 0, `client_id = "A"`) deletes
`connected_clients["A"]` anyway — it does not check that the entry still maps
to its own handle, so the newer connection loses its registration. -/
theorem C5_counterexample :
    brokerTakenOver.connected_clients "A" = some 1 ∧
    (cleanup brokerTakenOver hdOld).1.connected_clients "A" = none := by
  decide

/-- C5 (amended): cleanup deletes `connected_clients[client_id]` whenever the
key is present, regardless of which handle it maps to; in particular, after a
take-over, cleanup of the superseded connection also removes the newer
connection's entry. -/
theorem C5_cleanup_deletes_unconditionally (b : Broker) (hd : Handler)
    (cid : ClientId) (h : hd.client_id = some cid) :
    (cleanup b hd).1.connected_clients cid = none := by
  show (cleanupWriterMap (cleanupConnected
    (unwindSubscriptions (cleanupSession b hd) hd.writer) hd) hd).connected_clients
      cid = none
  rw [cleanupWriterMap_connected]
  unfold cleanupConnected
  rw [h]
  cases hc : (unwindSubscriptions (cleanupSession b hd) hd.writer).connected_clients cid with
  | none => simp [hc]
  | some w => simp [hc, upd_same]

/-- Witness for C5 amended at the take-over state of the counterexample. -/
theorem C5_cleanup_deletes_unconditionally_witness :
    hdOld.client_id = some "A" ∧
    (cleanup brokerTakenOver hdOld).1.connected_clients "A" = none :=
  ⟨rfl, C5_cleanup_deletes_unconditionally brokerTakenOver hdOld "A" rfl⟩

/-- C6: with authorization enabled and `(username, topic)` denied,
`PublishCommand.execute` drops the PUBLISH silently: broker state is
unchanged (no fan-out, nothing queued for any offline session) and no packet
is written (neither PUBACK nor PUBREC to the sender). -/
theorem C6_authz_denied_silent_drop (az : Option String → Topic → Bool)
    (b : Broker) (hd : Handler) (m : PublishMessage) (wf : Handle → Bool)
    (hen : b.authentication_enabled = true)
    (hden : az hd.username m.topic = false) :
    publishCommand az b hd m wf = (b, []) := by
  unfold publishCommand
  rw [if_pos ⟨hen, by simp [hden]⟩]

/-- A QoS-1 PUBLISH on `"t"` with packet id 7 and payload `b"h"`. -/
def msgQ1 : PublishMessage :=
  { header := { message_type := 3, qos := 1 }, topic := "t", packet_id := 7,
    payload := [104] }

/-- The publishing handler, on handle 0. -/
def hdPub : Handler := { writer := 0 }

/-- An authorizer that denies everything. -/
def azDeny : Option String → Topic → Bool := fun _ _ => false

/-- An authorizer that allows everything. -/
def azAllow : Option String → Topic → Bool := fun _ _ => true

/-- A write-failure pattern: only the write to handle 2 raises. -/
def failsAt2 : Handle → Bool := fun x => x == 2

/-- Witness for C6 at a denying authorizer and an auth-enabled broker. -/
theorem C6_authz_denied_silent_drop_witness :
    (Broker.init true).authentication_enabled = true ∧
    azDeny hdPub.username msgQ1.topic = false ∧
    publishCommand azDeny (Broker.init true) hdPub msgQ1 (fun _ => false) =
      (Broker.init true, []) :=
  ⟨rfl, rfl, C6_authz_denied_silent_drop azDeny (Broker.init true) hdPub msgQ1
    (fun _ => false) rfl rfl⟩

/-- C2: when authorization passes (disabled or allowed),
`PublishCommand.execute` writes the PUBLISH message itself — same packet id
and payload — to every handle in `subscriptions[topic]` other than the
sender's whose write does not fail (a failing write to one subscriber is
caught and does not affect the others, nor the final acknowledgment), and
then acknowledges the sender last: nothing for QoS 0, PUBACK with the same
packet id for QoS 1, PUBREC with the same packet id for QoS 2. -/
theorem C2_publish_fanout_and_ack (az : Option String → Topic → Bool)
    (b : Broker) (hd : Handler) (m : PublishMessage) (wf : Handle → Bool)
    (hok : b.authentication_enabled = false ∨ az hd.username m.topic = true) :
    (∀ h, h ∈ b.subscriptions m.topic → h ≠ hd.writer → wf h = false →
        Event.write h (.publishOut m) ∈ (publishCommand az b hd m wf).2) ∧
    (m.header.qos = 0 → ∀ w pid,
        Event.write w (.puback pid) ∉ (publishCommand az b hd m wf).2 ∧
        Event.write w (.pubrec pid) ∉ (publishCommand az b hd m wf).2) ∧
    (m.header.qos = 1 → (publishCommand az b hd m wf).2.getLast? =
        some (Event.write hd.writer (.puback m.packet_id))) ∧
    (m.header.qos = 2 → (publishCommand az b hd m wf).2.getLast? =
        some (Event.write hd.writer (.pubrec m.packet_id))) := by
  have hcond : ¬((b.authentication_enabled : Prop) ∧ ¬az hd.username m.topic) := by
    rcases hok with h | h <;> simp [h]
  have hev : (publishCommand az b hd m wf).2 =
      ((ascHandles (b.subscriptions m.topic)).filter
          (fun sub => sub != hd.writer)).filterMap
        (fun sub => if wf sub then none
          else some (Event.write sub (.publishOut m))) ++
      publishAck hd.writer m := by
    unfold publishCommand
    rw [if_neg hcond]
  refine ⟨fun h hmem hne hwf => ?_, fun hq w pid => ?_, fun hq => ?_, fun hq => ?_⟩
  · rw [hev]
    apply List.mem_append_left
    rw [List.mem_filterMap]
    refine ⟨h, ?_, by simp [hwf]⟩
    rw [List.mem_filter]
    exact ⟨(mem_ascHandles _ _).mpr hmem, by simp [hne]⟩
  · have hack : publishAck hd.writer m = [] := by simp [publishAck, hq]
    rw [hev, hack, List.append_nil]
    refine ⟨fun hmem => ?_, fun hmem => ?_⟩ <;>
    · rw [List.mem_filterMap] at hmem
      obtain ⟨a, -, heq⟩ := hmem
      by_cases hwf : wf a <;> simp [hwf] at heq
  · have hack : publishAck hd.writer m =
        [Event.write hd.writer (.puback m.packet_id)] := by simp [publishAck, hq]
    rw [hev, hack, List.getLast?_append_cons]
    rfl
  · have hack : publishAck hd.writer m =
        [Event.write hd.writer (.pubrec m.packet_id)] := by simp [publishAck, hq]
    rw [hev, hack, List.getLast?_append_cons]
    rfl

/-- A broker with handles 1 and 2 subscribed to `"t"` (no authentication). -/
def brokerFan : Broker :=
  { Broker.init false with
    subscriptions := fun t => if t = "t" then {1, 2} else ∅,
    client_subscriptions := fun h => if h = 1 ∨ h = 2 then {"t"} else ∅,
    connected_clients := fun c =>
      if c = "B" then some 1 else if c = "C" then some 2 else none,
    writer_to_client_id := fun h =>
      if h = 1 then some "B" else if h = 2 then some "C" else none }

/-- Witness for C2: publisher on handle 0, subscribers 1 and 2, the write to
handle 2 failing. -/
theorem C2_publish_fanout_and_ack_witness :
    (brokerFan.authentication_enabled = false ∨
      azAllow hdPub.username msgQ1.topic = true) ∧
    ((∀ h, h ∈ brokerFan.subscriptions msgQ1.topic → h ≠ hdPub.writer →
        failsAt2 h = false →
        Event.write h (.publishOut msgQ1) ∈
          (publishCommand azAllow brokerFan hdPub msgQ1 failsAt2).2) ∧
     (msgQ1.header.qos = 0 → ∀ w pid,
        Event.write w (.puback pid) ∉
          (publishCommand azAllow brokerFan hdPub msgQ1 failsAt2).2 ∧
        Event.write w (.pubrec pid) ∉
          (publishCommand azAllow brokerFan hdPub msgQ1 failsAt2).2) ∧
     (msgQ1.header.qos = 1 →
        (publishCommand azAllow brokerFan hdPub msgQ1 failsAt2).2.getLast? =
          some (Event.write hdPub.writer (.puback msgQ1.packet_id))) ∧
     (msgQ1.header.qos = 2 →
        (publishCommand azAllow brokerFan hdPub msgQ1 failsAt2).2.getLast? =
          some (Event.write hdPub.writer (.pubrec msgQ1.packet_id)))) :=
  ⟨Or.inl rfl,
   C2_publish_fanout_and_ack azAllow brokerFan hdPub msgQ1 failsAt2 (Or.inl rfl)⟩

/-- The broker at the error/success outcome of the SUBSCRIBE topic loop. -/
def SubResult.broker : SubResult → Broker
  | .ok b _ => b
  | .err b => b

/-- The broker at the error/success outcome of the UNSUBSCRIBE topic loop. -/
def UnsubResult.broker : UnsubResult → Broker
  | .ok b => b
  | .err b => b

/-- The claimed invariant: the two subscription registries agree — a handle
is in `subscriptions[topic]` exactly when the topic is in
`client_subscriptions[handle]`. -/
def RegistriesConsistent (b : Broker) : Prop :=
  ∀ t h, h ∈ b.subscriptions t ↔ t ∈ b.client_subscriptions h

theorem rc_of_fields (b b' : Broker)
    (hs : b'.subscriptions = b.subscriptions)
    (hc : b'.client_subscriptions = b.client_subscriptions)
    (hinv : RegistriesConsistent b) : RegistriesConsistent b' := by
  intro t h
  rw [hs, hc]
  exact hinv t h

theorem rc_unwind (b : Broker) (w : Handle)
    (hinv : RegistriesConsistent b) :
    RegistriesConsistent (unwindSubscriptions b w) := by
  intro t h
  show h ∈ (if t ∈ b.client_subscriptions w then (b.subscriptions t).erase w
      else b.subscriptions t) ↔ t ∈ upd b.client_subscriptions w ∅ h
  by_cases hw : h = w
  · subst hw
    rw [upd_same]
    by_cases hmem : t ∈ b.client_subscriptions h
    · simp [hmem]
    · simp only [hmem, if_false, Finset.not_mem_empty, iff_false]
      exact fun hx => hmem ((hinv t h).1 hx)
  · rw [upd_other _ _ _ _ hw]
    by_cases hmem : t ∈ b.client_subscriptions w
    · simp only [hmem, if_true, Finset.mem_erase, ne_eq, hw, not_false_iff,
        true_and]
      exact hinv t h
    · simp only [hmem, if_false]
      exact hinv t h

theorem rc_sub_insert (b : Broker) (w : Handle) (topic : Topic)
    (hinv : RegistriesConsistent b) :
    RegistriesConsistent
      { b with
        subscriptions := upd b.subscriptions topic
          (insert w (b.subscriptions topic)),
        client_subscriptions := upd b.client_subscriptions w
          (insert topic (b.client_subscriptions w)) } := by
  intro t h
  show h ∈ (upd b.subscriptions topic (insert w (b.subscriptions topic))) t ↔
    t ∈ (upd b.client_subscriptions w (insert topic (b.client_subscriptions w))) h
  by_cases ht : t = topic <;> by_cases hw : h = w
  · subst ht; subst hw
    rw [upd_same, upd_same]
    simp
  · subst ht
    rw [upd_same, upd_other _ _ _ _ hw]
    simp only [Finset.mem_insert, hw, false_or]
    exact hinv _ h
  · subst hw
    rw [upd_other _ _ _ _ ht, upd_same]
    simp only [Finset.mem_insert, ht, false_or]
    exact hinv t _
  · rw [upd_other _ _ _ _ ht, upd_other _ _ _ _ hw]
    exact hinv t h

theorem rc_sub_erase (b : Broker) (w : Handle) (topic : Topic)
    (hinv : RegistriesConsistent b) :
    RegistriesConsistent
      { b with
        subscriptions := upd b.subscriptions topic
          ((b.subscriptions topic).erase w),
        client_subscriptions := upd b.client_subscriptions w
          ((b.client_subscriptions w).erase topic) } := by
  intro t h
  show h ∈ (upd b.subscriptions topic ((b.subscriptions topic).erase w)) t ↔
    t ∈ (upd b.client_subscriptions w ((b.client_subscriptions w).erase topic)) h
  by_cases ht : t = topic <;> by_cases hw : h = w
  · subst ht; subst hw
    rw [upd_same, upd_same]
    simp
  · subst ht
    rw [upd_same, upd_other _ _ _ _ hw]
    simp only [Finset.mem_erase, ne_eq, hw, not_false_iff, true_and]
    exact hinv _ h
  · subst hw
    rw [upd_other _ _ _ _ ht, upd_same]
    simp only [Finset.mem_erase, ne_eq, ht, not_false_iff, true_and]
    exact hinv t _
  · rw [upd_other _ _ _ _ ht, upd_other _ _ _ _ hw]
    exact hinv t h

theorem rc_subscribeLoop (az : Option String → Topic → Bool) (hd : Handler) :
    ∀ (ts : List (Topic × Nat)) (b : Broker) (granted : List Nat),
      RegistriesConsistent b →
      RegistriesConsistent (subscribeLoop az hd ts b granted).broker := by
  intro ts
  induction ts with
  | nil => intro b g hinv; exact hinv
  | cons p rest ih =>
    intro b g hinv
    obtain ⟨topic, qos⟩ := p
    simp only [subscribeLoop]
    by_cases hcond : (b.authentication_enabled : Prop) ∧ ¬az hd.username topic
    · rw [if_pos hcond]
      exact ih b _ hinv
    · rw [if_neg hcond]
      by_cases hm : topic ∉ b.client_subscriptions hd.writer
      · rw [if_pos hm]
        have hinv2 := rc_sub_insert b hd.writer topic hinv
        by_cases hsess : (truthy hd.client_id : Prop) ∧ ¬hd.clean_session
        · rw [if_pos hsess]
          repeat' split
          all_goals first
            | exact ih _ _ (rc_of_fields _ _ rfl rfl hinv2)
            | exact hinv2
        · rw [if_neg hsess]
          exact ih _ _ hinv2
      · rw [if_neg hm]
        exact ih b _ hinv

theorem rc_unsubscribeLoop (hd : Handler) :
    ∀ (ts : List Topic) (b : Broker),
      RegistriesConsistent b →
      RegistriesConsistent (unsubscribeLoop hd ts b).broker := by
  intro ts
  induction ts with
  | nil => intro b hinv; exact hinv
  | cons topic rest ih =>
    intro b hinv
    simp only [unsubscribeLoop]
    by_cases hm : topic ∈ b.client_subscriptions hd.writer
    · rw [if_pos hm]
      have hinv2 := rc_sub_erase b hd.writer topic hinv
      by_cases hsess : (truthy hd.client_id : Prop) ∧ ¬hd.clean_session
      · rw [if_pos hsess]
        repeat' split
        all_goals first
          | exact ih _ (rc_of_fields _ _ rfl rfl hinv2)
          | exact hinv2
      · rw [if_neg hsess]
        exact ih _ hinv2
    · rw [if_neg hm]
      exact ih b hinv

theorem rc_takeover (b : Broker) (m : ConnectMessage)
    (hinv : RegistriesConsistent b) :
    RegistriesConsistent (connectTakeover b m).1 := by
  unfold connectTakeover
  repeat' split
  all_goals first
    | exact rc_of_fields _ _ rfl rfl (rc_unwind b _ hinv)
    | exact hinv

theorem rc_subscribeFinish (hd : Handler) (pid : Nat) (r : SubResult)
    (hinv : RegistriesConsistent r.broker) :
    RegistriesConsistent (subscribeFinish hd pid r).1 := by
  unfold subscribeFinish
  repeat' split
  all_goals exact rc_of_fields _ _ rfl rfl hinv

theorem cleanupSession_fields (b : Broker) (hd : Handler) :
    (cleanupSession b hd).subscriptions = b.subscriptions ∧
    (cleanupSession b hd).client_subscriptions = b.client_subscriptions := by
  unfold cleanupSession
  repeat' split
  all_goals exact ⟨rfl, rfl⟩

theorem cleanupConnected_fields (b : Broker) (hd : Handler) :
    (cleanupConnected b hd).subscriptions = b.subscriptions ∧
    (cleanupConnected b hd).client_subscriptions = b.client_subscriptions := by
  unfold cleanupConnected
  repeat' split
  all_goals exact ⟨rfl, rfl⟩

theorem cleanupWriterMap_fields (b : Broker) (hd : Handler) :
    (cleanupWriterMap b hd).subscriptions = b.subscriptions ∧
    (cleanupWriterMap b hd).client_subscriptions = b.client_subscriptions := by
  unfold cleanupWriterMap
  cases b.writer_to_client_id hd.writer <;> exact ⟨rfl, rfl⟩

/-- C7: every broker operation — CONNECT (including its take-over branch),
SUBSCRIBE, UNSUBSCRIBE, and CLEANUP — preserves the mutual consistency of
`subscriptions` and `client_subscriptions`: a handle is in a topic's
subscriber set exactly when the topic is in the handle's subscription set. -/
theorem C7_registries_consistent
    (login : Option String → Option String → Bool)
    (az : Option String → Topic → Bool)
    (b : Broker) (hd : Handler) (cm : ConnectMessage) (sm : SubscribeMessage)
    (um : UnsubscribeMessage)
    (hinv : RegistriesConsistent b) :
    RegistriesConsistent (handle_connect login b hd cm).1 ∧
    RegistriesConsistent (handle_subscribe az b hd sm).1 ∧
    RegistriesConsistent (handle_unsubscribe b hd um).1 ∧
    RegistriesConsistent (cleanup b hd).1 := by
  refine ⟨?_, ?_, ?_, ?_⟩
  · unfold handle_connect
    by_cases hauth : (b.authentication_enabled : Prop) ∧ ¬login cm.username cm.password
    · rw [if_pos hauth]
      exact hinv
    · rw [if_neg hauth]
      refine rc_of_fields _ _ rfl rfl (rc_takeover _ cm ?_)
      obtain ⟨h1, h2, -, -⟩ := connectSession_proj b cm
      exact rc_of_fields _ _ h1 h2 hinv
  · have hloop := rc_subscribeLoop az hd sm.subscriptions b [] hinv
    unfold handle_subscribe
    exact rc_subscribeFinish hd sm.packet_id _ hloop
  · have hloop := rc_unsubscribeLoop hd um.topics b hinv
    unfold handle_unsubscribe
    cases heq : unsubscribeLoop hd um.topics b with
    | err b' =>
      rw [heq] at hloop
      exact hloop
    | ok b' =>
      rw [heq] at hloop
      exact hloop
  · obtain ⟨hw1, hw2⟩ := cleanupWriterMap_fields
      (cleanupConnected (unwindSubscriptions (cleanupSession b hd) hd.writer) hd) hd
    obtain ⟨hc1, hc2⟩ := cleanupConnected_fields
      (unwindSubscriptions (cleanupSession b hd) hd.writer) hd
    obtain ⟨hs1, hs2⟩ := cleanupSession_fields b hd
    refine rc_of_fields _ _ hw1 hw2 (rc_of_fields _ _ hc1 hc2 (rc_unwind _ hd.writer ?_))
    exact rc_of_fields _ _ hs1 hs2 hinv

/-- Witness for C7 at the empty broker and concrete packets. -/
theorem C7_registries_consistent_witness :
    RegistriesConsistent (Broker.init false) ∧
    (RegistriesConsistent (handle_connect (fun _ _ => true) (Broker.init false)
        { writer := 0 } { client_id := "A" }).1 ∧
     RegistriesConsistent (handle_subscribe azAllow (Broker.init false)
        { writer := 0 } ⟨7, [("t", 1)]⟩).1 ∧
     RegistriesConsistent (handle_unsubscribe (Broker.init false)
        { writer := 0 } ⟨8, ["t"]⟩).1 ∧
     RegistriesConsistent (cleanup (Broker.init false) { writer := 0 }).1) := by
  have hinv : RegistriesConsistent (Broker.init false) := by
    intro t h
    simp [Broker.init]
  exact ⟨hinv, C7_registries_consistent (fun _ _ => true) azAllow (Broker.init false)
    { writer := 0 } { client_id := "A" } ⟨7, [("t", 1)]⟩ ⟨8, ["t"]⟩ hinv⟩

/-- The SUBSCRIBE topic loop, run by a handler whose `client_id` is a truthy
`cid` with `clean_session = false` and whose session exists, always succeeds
and only ever touches the session's `subscriptions` field — its offline queue
and dedup-id set pass through unchanged. -/
theorem subscribeLoop_preserves_queues (az : Option String → Topic → Bool)
    (hd : Handler) (cid : ClientId)
    (hcid : hd.client_id = some cid) (hne : cid ≠ "")
    (hclean : hd.clean_session = false) :
    ∀ (ts : List (Topic × Nat)) (b : Broker) (granted : List Nat)
      (S : SessionData), b.sessions cid = some S →
      ∃ b' g, subscribeLoop az hd ts b granted = .ok b' g ∧
        ∃ subs2, b'.sessions cid = some
          { subscriptions := subs2,
            queued_messages := S.queued_messages,
            queued_message_ids := S.queued_message_ids } := by
  intro ts
  induction ts with
  | nil =>
    intro b granted S hS
    exact ⟨b, granted, rfl, S.subscriptions, by rw [hS]⟩
  | cons p rest ih =>
    intro b granted S hS
    obtain ⟨topic, qos⟩ := p
    simp only [subscribeLoop]
    by_cases hcond : (b.authentication_enabled : Prop) ∧ ¬az hd.username topic
    · rw [if_pos hcond]
      exact ih b _ S hS
    · rw [if_neg hcond]
      by_cases hm : topic ∉ b.client_subscriptions hd.writer
      · rw [if_pos hm, if_pos (by simp [truthy, hcid, hne, hclean])]
        split
        · next cid' heq =>
          rw [hcid] at heq
          injection heq with h1
          subst h1
          split
          · next s' heq2 =>
            rw [hS] at heq2
            injection heq2 with h2
            subst h2
            obtain ⟨b', g, hb', subs2, hsess⟩ := ih
              { b with
                subscriptions := upd b.subscriptions topic
                  (insert hd.writer (b.subscriptions topic)),
                client_subscriptions := upd b.client_subscriptions hd.writer
                  (insert topic (b.client_subscriptions hd.writer)),
                sessions := upd b.sessions cid
                  (some { S with subscriptions := insert topic S.subscriptions }) }
              (granted ++ [qos])
              { S with subscriptions := insert topic S.subscriptions }
              (upd_same _ _ _)
            exact ⟨b', g, hb', subs2, hsess⟩
          · next heq2 =>
            rw [hS] at heq2
            exact absurd heq2 (by simp)
        · next heq =>
          rw [hcid] at heq
          exact absurd heq (by simp)
      · rw [if_neg hm]
        exact ih b _ S hS

/-- When the handler holds a truthy `client_id` with `clean_session = false`
and the session has a non-empty queue, the SUBSCRIBE epilogue writes the
SUBACK and then the queued PUBLISH packets as-is, in order, and clears both
the queue and the dedup-id set. -/
theorem subscribeFinish_flush (hd : Handler) (pid : Nat) (b : Broker)
    (g : List Nat) (cid : ClientId) (s : SessionData)
    (hcid : hd.client_id = some cid) (hne : cid ≠ "")
    (hclean : hd.clean_session = false)
    (hs : b.sessions cid = some s) (hq : s.queued_messages ≠ []) :
    subscribeFinish hd pid (.ok b g) =
      ({ b with sessions := (upd b.sessions cid
           (some { s with queued_messages := [], queued_message_ids := ∅ })) },
       Event.write hd.writer (.suback pid g) ::
         s.queued_messages.map (fun q => Event.write hd.writer (.publishOut q))) := by
  simp only [subscribeFinish]
  rw [if_pos (by simp [truthy, hcid, hne, hclean])]
  split
  · next cid' heq =>
    rw [hcid] at heq
    injection heq with h1
    subst h1
    split
    · next s' heq2 =>
      rw [hs] at heq2
      injection heq2 with h2
      subst h2
      rw [if_pos hq]
      rfl
    · next heq2 =>
      rw [hs] at heq2
      exact absurd heq2 (by simp)
  · next heq =>
    rw [hcid] at heq
    exact absurd heq (by simp)

/-- C3: (publish side) a PUBLISH at QoS 1 or 2 whose dedup key is new is
appended to the queue of every session that is offline and subscribed to the
topic, and the key is recorded; a QoS 0 PUBLISH changes no session at all.
(subscribe side) The next SUBSCRIBE processed for a session with a non-empty
queue writes the queued packets to the connection in enqueue order (right
after the SUBACK), after which both the queue and the dedup-id set are
empty. -/
theorem C3_offline_queue_and_flush
    (b bf : Broker) (hd hdf : Handler) (m : PublishMessage)
    (sm : SubscribeMessage) (wf : Handle → Bool)
    (az : Option String → Topic → Bool) (cid cidf : ClientId)
    (S Sf : SessionData)
    (hs : b.sessions cid = some S)
    (hoff : b.connected_clients cid = none)
    (hsub : m.topic ∈ S.subscriptions)
    (hcidf : hdf.client_id = some cidf) (hnef : cidf ≠ "")
    (hcleanf : hdf.clean_session = false)
    (hsf : bf.sessions cidf = some Sf)
    (hqf : Sf.queued_messages ≠ []) :
    ((m.header.qos = 1 ∨ m.header.qos = 2) →
      dedupKey m.packet_id m.topic m.payload ∉ S.queued_message_ids →
      (handle_publish b hd m wf).1.sessions cid =
        some { S with
          queued_messages := S.queued_messages ++ [m],
          queued_message_ids := insert (dedupKey m.packet_id m.topic m.payload)
            S.queued_message_ids }) ∧
    (m.header.qos = 0 → (handle_publish b hd m wf).1.sessions = b.sessions) ∧
    (∃ g, (handle_subscribe az bf hdf sm).2 =
      Event.write hdf.writer (.suback sm.packet_id g) ::
        Sf.queued_messages.map (fun q => Event.write hdf.writer (.publishOut q))) ∧
    (∃ subs2, (handle_subscribe az bf hdf sm).1.sessions cidf =
      some { subscriptions := subs2, queued_messages := [],
             queued_message_ids := ∅ }) := by
  obtain ⟨b', g, hb', subs2, hsess⟩ :=
    subscribeLoop_preserves_queues az hdf cidf hcidf hnef hcleanf
      sm.subscriptions bf [] Sf hsf
  have hflush := subscribeFinish_flush hdf sm.packet_id b' g cidf
    { subscriptions := subs2, queued_messages := Sf.queued_messages,
      queued_message_ids := Sf.queued_message_ids }
    hcidf hnef hcleanf hsess hqf
  have hhs : handle_subscribe az bf hdf sm =
      subscribeFinish hdf sm.packet_id (.ok b' g) := by
    unfold handle_subscribe
    rw [hb']
  refine ⟨fun hq hkey => ?_, fun hq0 => ?_, ⟨g, ?_⟩, ⟨subs2, ?_⟩⟩
  · show ((b.sessions cid).map (queueOffline b m cid)) = _
    rw [hs, Option.map_some']
    unfold queueOffline
    rw [if_pos ⟨by rw [hoff]; rfl, hsub⟩, if_pos hq, if_pos hkey]
  · show (fun c => (b.sessions c).map (queueOffline b m c)) = b.sessions
    funext c
    cases hc : b.sessions c with
    | none => rfl
    | some s =>
      rw [Option.map_some']
      have hid : queueOffline b m c s = s := by
        unfold queueOffline
        split
        · rw [if_neg (by simp [hq0])]
        · rfl
      rw [hid]
  · rw [hhs, hflush]
  · rw [hhs, hflush]
    show (upd b'.sessions cidf _) cidf = _
    rw [upd_same]

/-- A session subscribed to `"t"` with nothing queued. -/
def sessT : SessionData := { subscriptions := {"t"} }

/-- A broker where client `"S"` has an offline session subscribed to `"t"`. -/
def brokerOff : Broker :=
  { Broker.init false with
    sessions := fun c => if c = "S" then some sessT else none }

/-- `"S"`'s session with one message queued. -/
def sessQ : SessionData :=
  { subscriptions := {"t"}, queued_messages := [msgQ1],
    queued_message_ids := {dedupKey 7 "t" [104]} }

/-- A broker where offline client `"S"` has `msgQ1` queued. -/
def brokerQ : Broker :=
  { Broker.init false with
    sessions := fun c => if c = "S" then some sessQ else none }

/-- The handler of `"S"`'s new connection (handle 3, `clean_session=false`),
about to SUBSCRIBE. -/
def hdSub : Handler := { writer := 3, client_id := some "S", clean_session := false }

/-- Witness for C3: `msgQ1` published while `"S"` is offline, and a SUBSCRIBE
on `"S"`'s reconnection flushing a queue holding `msgQ1`. -/
theorem C3_offline_queue_and_flush_witness :
    (brokerOff.sessions "S" = some sessT ∧
     brokerOff.connected_clients "S" = none ∧
     msgQ1.topic ∈ sessT.subscriptions ∧
     hdSub.client_id = some "S" ∧ "S" ≠ "" ∧ hdSub.clean_session = false ∧
     brokerQ.sessions "S" = some sessQ ∧ sessQ.queued_messages ≠ []) ∧
    (((msgQ1.header.qos = 1 ∨ msgQ1.header.qos = 2) →
      dedupKey msgQ1.packet_id msgQ1.topic msgQ1.payload ∉ sessT.queued_message_ids →
      (handle_publish brokerOff hdPub msgQ1 failsAt2).1.sessions "S" =
        some { sessT with
          queued_messages := sessT.queued_messages ++ [msgQ1],
          queued_message_ids := insert
            (dedupKey msgQ1.packet_id msgQ1.topic msgQ1.payload)
            sessT.queued_message_ids }) ∧
     (msgQ1.header.qos = 0 →
      (handle_publish brokerOff hdPub msgQ1 failsAt2).1.sessions = brokerOff.sessions) ∧
     (∃ g, (handle_subscribe azAllow brokerQ hdSub ⟨9, []⟩).2 =
       Event.write hdSub.writer (.suback 9 g) ::
         sessQ.queued_messages.map (fun q => Event.write hdSub.writer (.publishOut q))) ∧
     (∃ subs2, (handle_subscribe azAllow brokerQ hdSub ⟨9, []⟩).1.sessions "S" =
       some { subscriptions := subs2, queued_messages := [],
              queued_message_ids := ∅ })) :=
  ⟨⟨rfl, rfl, by decide, rfl, by decide, rfl, rfl, by decide⟩,
   C3_offline_queue_and_flush brokerOff brokerQ hdPub hdSub msgQ1 ⟨9, []⟩
     failsAt2 azAllow "S" "S" sessT sessQ rfl rfl (by decide) rfl (by decide)
     rfl rfl (by decide)⟩

/-- The first QoS-1 PUBLISH of the colliding pair: payload `b"a\xff"`. -/
def msg10a : PublishMessage :=
  { header := { message_type := 3, qos := 1 }, topic := "t", packet_id := 5,
    payload := [97, 255] }

/-- The second QoS-1 PUBLISH: same packet id and topic, different payload
bytes `b"\xffa"`, stripping to the same UTF-8 text `"a"`. -/
def msg10b : PublishMessage :=
  { header := { message_type := 3, qos := 1 }, topic := "t", packet_id := 5,
    payload := [255, 97] }

/-- C10: the offline-queue dedup key decodes the payload as UTF-8 with
undecodable bytes dropped, so the two distinct payloads `[0x61, 0xFF]` and
`[0xFF, 0x61]` produce the same key; publishing both while `"S"` is offline
queues only the first, and the SUBSCRIBE flush on reconnection delivers only
the first — the second is never delivered to that session. -/
theorem C10_dedup_key_payload_collision :
    msg10a.payload ≠ msg10b.payload ∧
    payloadText msg10a.payload = payloadText msg10b.payload ∧
    dedupKey msg10a.packet_id msg10a.topic msg10a.payload =
      dedupKey msg10b.packet_id msg10b.topic msg10b.payload ∧
    ((handle_publish brokerOff hdPub msg10a (fun _ => false)).1.sessions "S").map
      SessionData.queued_messages = some [msg10a] ∧
    (((handle_publish (handle_publish brokerOff hdPub msg10a (fun _ => false)).1
        hdPub msg10b (fun _ => false)).1.sessions "S").map
      SessionData.queued_messages = some [msg10a]) ∧
    (handle_subscribe azAllow
        (handle_publish (handle_publish brokerOff hdPub msg10a (fun _ => false)).1
          hdPub msg10b (fun _ => false)).1 hdSub ⟨9, []⟩).2 =
      [Event.write 3 (.suback 9 []), Event.write 3 (.publishOut msg10a)] := by
  decide

end MQTT
